import Mathlib

/-!
Verification of the key-service core of the unkey agent
(`apps/agent/pkg/services/keys/service.go`).

The constructor `New`, its `Config`, the `keyService` struct, the
`KeyService` interface, the `Middleware` type and the `Database` interface
are embedded from the Go source.  The `VerifyKey` pipeline itself, the
cache, the token-bucket rate limiter and the hash function are not part of
the provided source tree (only their interface declarations and their
tests are), so they are modelled from the specification, as indicated on
each such definition.
-/

namespace Keys

/-- Error codes of the response vocabulary (spec §6). -/
inductive ErrorCode where
  | NOT_FOUND
  | FORBIDDEN
  | RATELIMITED
  | USAGE_EXCEEDED
  | BAD_REQUEST
  | INTERNAL
deriving DecidableEq, BEq

/-- Rate-limit variant (`keysv1.RatelimitType`): `fast` is the node-local
token bucket, `consistent` the cluster-coordinated limiter. -/
inductive RatelimitType where
  | fast
  | consistent
deriving DecidableEq, BEq

/-- Rate-limit policy attached to a key (`keysv1.Ratelimit`). -/
structure RatelimitPolicy where
  type : RatelimitType
  limit : Int
  refillRate : Int
  refillInterval : Int
deriving DecidableEq, BEq

/-- Rate-limit state returned to the caller on every rate-limited
verification (spec §3). -/
structure RatelimitState where
  limit : Int
  remaining : Int
  resetAt : Int
deriving DecidableEq, BEq

/-- The persisted key record (`keysv1.Key`, with the fields the core and
its tests use).  `remaining` is the signed 32-bit counter of the source,
modelled as `Int` (no claim exercises wrap-around).  `deleted` is the
soft-delete marker. -/
structure Key where
  id : String
  keyAuthId : String
  workspaceId : String
  hash : String
  createdAt : Int
  expires : Option Int := none
  remaining : Option Int := none
  ratelimit : Option RatelimitPolicy := none
  deleted : Bool := false
deriving DecidableEq, BEq

/-- The API policy envelope (`entities.Api`). -/
structure Api where
  id : String
  name : String
  workspaceId : String
  keyAuthId : String
  authType : String := "key"
  ipWhitelist : List String := []
deriving DecidableEq, BEq

/-- `keysv1.VerifyKeyRequest` (the fields the core consumes). -/
structure VerifyKeyRequest where
  key : String
  sourceIp : String := ""
deriving DecidableEq, BEq

/-- `keysv1.VerifyKeyResponse` (the fields the core and the tests use). -/
structure VerifyKeyResponse where
  valid : Bool
  code : Option ErrorCode := none
  keyId : Option String := none
  workspaceId : Option String := none
  apiId : Option String := none
  remaining : Option Int := none
  ratelimit : Option RatelimitState := none
  expires : Option Int := none
deriving DecidableEq, BEq

/-- Transient token bucket held by a limiter for one `(key id, policy)`
identity (spec §4.2 step 7). -/
structure BucketState where
  remaining : Int
  resetAt : Int
deriving DecidableEq, BEq

/-- Modelled from the spec: the combined state of the external
collaborators the pipeline consumes — the database rows (`keys`, `apis`),
the limiters' buckets keyed by the `(key id, policy)` identity (§4.2
step 7), the number of analytics events published so far (§4.7: the test
double counts calls), and the current time in milliseconds. -/
structure World where
  keys : List Key := []
  apis : List Api := []
  buckets : List ((String × RatelimitPolicy) × BucketState) := []
  publishCount : Nat := 0
  now : Int := 0
deriving DecidableEq

/-- One observable collaborator call of a single `VerifyKey` execution. -/
inductive Effect where
  | findKey
  | findApi
  | ratelimitTake
  | decrementRemaining
  | publish
deriving DecidableEq

/-- Modelled from the spec: `Database.FindKeyByHash` (the interface is in
`service.go`, the implementation is external).  Returns the first stored
record with the given hash; the soft-delete marker is checked by the
pipeline itself (§4.2 step 3 requires the core to tolerate receiving a
tombstone). -/
def findKeyByHash (w : World) (h : String) : Option Key :=
  w.keys.find? (fun k => k.hash == h)

/-- Modelled from the spec: `Database.FindApiByKeyAuthId`. -/
def findApiByKeyAuthId (w : World) (keyAuthId : String) : Option Api :=
  w.apis.find? (fun a => a.keyAuthId == keyAuthId)

/-- The per-record update performed by `DecrementRemainingKeyUsage`: the
record with the given id has its `remaining` counter (when present)
decremented; every other record is untouched. -/
def decKey (keyId : String) (k : Key) : Key :=
  if k.id == keyId then { k with remaining := k.remaining.map (fun r => r - 1) } else k

/-- Modelled from the spec: `Database.DecrementRemainingKeyUsage` — an
atomic decrement on the store side that returns the post-decrement record
(§4.2 step 8, §6). -/
def decrementRemainingKeyUsage (w : World) (keyId : String) : World × Option Key :=
  let keys := w.keys.map (decKey keyId)
  ({ w with keys := keys }, keys.find? (fun k => k.id == keyId))

/-- Modelled from the spec: the analytics sink's
`PublishKeyVerificationEvent` — fire-and-forget, observed as a call
counter (§4.7). -/
def publishKeyVerificationEvent (w : World) : World :=
  { w with publishCount := w.publishCount + 1 }

/-- Modelled from the spec: `hash.Sha256`, "a fixed-output
collision-resistant digest"; an injective stand-in suffices for the
model. -/
def sha256 (s : String) : String :=
  "sha256(" ++ s ++ ")"

/-- Modelled from the spec: the rate limiter's `Take` (§4.6) with the
token-bucket refill behaviour of scenario 4 (§8): a fresh identity starts
with a full bucket and `reset_at = now + refill_interval`; once `reset_at`
has passed, `refill_rate` tokens are added (capped at `limit`) and a new
window starts; an allowed take consumes one token; a denied take reports
`remaining = 0`. -/
def Take (now : Int) (pol : RatelimitPolicy) (st : Option BucketState) :
    Bool × RatelimitState × BucketState :=
  let cur : BucketState :=
    match st with
    | none => { remaining := pol.limit, resetAt := now + pol.refillInterval }
    | some s =>
      if s.resetAt ≤ now then
        { remaining := min pol.limit (s.remaining + pol.refillRate),
          resetAt := now + pol.refillInterval }
      else s
  if 0 < cur.remaining then
    (true, { limit := pol.limit, remaining := cur.remaining - 1, resetAt := cur.resetAt },
      { cur with remaining := cur.remaining - 1 })
  else
    (false, { limit := pol.limit, remaining := 0, resetAt := cur.resetAt }, cur)

/-- Overwrite the bucket stored for one identity. -/
def setBucket (bs : List ((String × RatelimitPolicy) × BucketState))
    (ident : String × RatelimitPolicy) (b : BucketState) :
    List ((String × RatelimitPolicy) × BucketState) :=
  (ident, b) :: bs.filter (fun p => !(p.1 == ident))

/-- Spec §4.2 step 6: a key with `expires_at` set and `expires_at ≤ now`
is expired. -/
def keyExpired (k : Key) (now : Int) : Bool :=
  match k.expires with
  | some e => decide (e ≤ now)
  | none => false

/-- Outcome of one `VerifyKey` call: the response-or-thrown-error, the
collaborator state afterwards, and the ordered list of collaborator calls
made during the execution. -/
structure VerifyResult where
  out : Except ErrorCode VerifyKeyResponse
  world : World
  effects : List Effect

/-- The response of the success path (spec §4.2 step 9: `valid = true`
plus identifiers, expiry echo and remaining-counter echo). -/
def successResponse (key : Key) (api : Api) (rem : Option Int)
    (rl : Option RatelimitState) : VerifyKeyResponse :=
  { valid := true, keyId := some key.id, workspaceId := some key.workspaceId,
    apiId := some api.id, remaining := rem, ratelimit := rl, expires := key.expires }

/-- Modelled from the spec: step 8 of the `VerifyKey` pipeline (remaining
usage) followed by step 9 (success) and step 10 (analytics publish).
`rl` is the rate-limit state already obtained, `effs` the effects made so
far. -/
def finishRemaining (w : World) (key : Key) (api : Api)
    (rl : Option RatelimitState) (effs : List Effect) : VerifyResult :=
  match key.remaining with
  | none =>
    { out := Except.ok (successResponse key api none rl),
      world := publishKeyVerificationEvent w,
      effects := effs ++ [Effect.publish] }
  | some r =>
    if r ≤ 0 then
      { out := Except.ok { valid := false, code := some ErrorCode.USAGE_EXCEEDED,
                           remaining := some 0, ratelimit := rl },
        world := publishKeyVerificationEvent w,
        effects := effs ++ [Effect.publish] }
    else
      let d := decrementRemainingKeyUsage w key.id
      let rem := (d.2.bind Key.remaining).getD (r - 1)
      if rem < 0 then
        { out := Except.ok { valid := false, code := some ErrorCode.USAGE_EXCEEDED,
                             remaining := some 0, ratelimit := rl },
          world := publishKeyVerificationEvent d.1,
          effects := effs ++ [Effect.decrementRemaining, Effect.publish] }
      else
        { out := Except.ok (successResponse key api (some rem) rl),
          world := publishKeyVerificationEvent d.1,
          effects := effs ++ [Effect.decrementRemaining, Effect.publish] }

/-- Modelled from the spec: step 7 (rate limit) of the pipeline.  The
bucket identity is `(key id, policy)`; on denial the response still
carries the rate-limit state and no decrement happens. -/
def applyRatelimit (w : World) (key : Key) (api : Api) : VerifyResult :=
  match key.ratelimit with
  | none => finishRemaining w key api none [Effect.findKey, Effect.findApi]
  | some pol =>
    let t := Take w.now pol (w.buckets.lookup (key.id, pol))
    let w1 := { w with buckets := setBucket w.buckets (key.id, pol) t.2.2 }
    if t.1 then
      finishRemaining w1 key api (some t.2.1)
        [Effect.findKey, Effect.findApi, Effect.ratelimitTake]
    else
      { out := Except.ok { valid := false, code := some ErrorCode.RATELIMITED,
                           ratelimit := some t.2.1 },
        world := publishKeyVerificationEvent w1,
        effects := [Effect.findKey, Effect.findApi, Effect.ratelimitTake, Effect.publish] }

/-- Modelled from the spec: steps 5 (IP whitelist) and 6 (expiration) of
the pipeline, in that order ("first matching branch terminates"). -/
def applyChecks (w : World) (req : VerifyKeyRequest) (key : Key) (api : Api) : VerifyResult :=
  if api.ipWhitelist ≠ [] ∧ req.sourceIp ∉ api.ipWhitelist then
    { out := Except.ok { valid := false, code := some ErrorCode.FORBIDDEN },
      world := publishKeyVerificationEvent w,
      effects := [Effect.findKey, Effect.findApi, Effect.publish] }
  else if keyExpired key w.now then
    { out := Except.ok { valid := false, code := some ErrorCode.NOT_FOUND },
      world := publishKeyVerificationEvent w,
      effects := [Effect.findKey, Effect.findApi, Effect.publish] }
  else
    applyRatelimit w key api

/-- Modelled from the spec: the `VerifyKey` pipeline of §4.2 (the
implementation is not part of the provided source; only its interface and
tests are).  Steps 1–4 are here, steps 5–10 in the stage functions above.
Branches that terminate after the key record has been resolved publish one
analytics event (§4.2 step 10). -/
def verifyKey (w : World) (req : VerifyKeyRequest) : VerifyResult :=
  if req.key = "" then
    { out := Except.error ErrorCode.BAD_REQUEST, world := w, effects := [] }
  else
    match findKeyByHash w (sha256 req.key) with
    | none =>
      { out := Except.ok { valid := false, code := some ErrorCode.NOT_FOUND },
        world := w, effects := [Effect.findKey] }
    | some key =>
      if key.deleted then
        { out := Except.ok { valid := false, code := some ErrorCode.NOT_FOUND },
          world := publishKeyVerificationEvent w,
          effects := [Effect.findKey, Effect.publish] }
      else
        match findApiByKeyAuthId w key.keyAuthId with
        | none =>
          { out := Except.ok { valid := false, code := some ErrorCode.NOT_FOUND },
            world := publishKeyVerificationEvent w,
            effects := [Effect.findKey, Effect.findApi, Effect.publish] }
        | some api => applyChecks w req key api

/-- Modelled from the spec (§4.3): `CreateKey` persists the record via
`InsertKey` and returns the stored record's identifier. -/
def createKey (w : World) (k : Key) : World × String :=
  ({ w with keys := w.keys ++ [k] }, k.id)

/-- Modelled from the spec (§4.4): `SoftDeleteKey` tombstones by id. -/
def softDeleteKey (w : World) (keyId : String) : World :=
  { w with keys := w.keys.map (fun k => if k.id == keyId then { k with deleted := true } else k) }

/-- Handle for an externally provided database adapter (the `Database`
interface of `service.go`; `none` at a use site models a nil interface
value). -/
structure Database where
  id : Nat
deriving DecidableEq

/-- Handle for an `events.EventBus` instance. -/
structure EventBus where
  id : Nat
deriving DecidableEq

/-- Handle for a `tracing.Tracer` instance. -/
structure Tracer where
  id : Nat
deriving DecidableEq

/-- Handle for a `metrics.Metrics` instance. -/
structure Metrics where
  id : Nat
deriving DecidableEq

/-- Handle for an `analytics.Analytics` instance. -/
structure Analytics where
  id : Nat
deriving DecidableEq

/-- Handle for a `ratelimit.Ratelimiter` instance. -/
structure Ratelimiter where
  id : Nat
deriving DecidableEq

/-- `logging.Logger`, modelled as its attached context fields;
`With().Str(k, v).Logger()` appends a field. -/
structure Logger where
  fields : List (String × String) := []
deriving DecidableEq

/-- The `With().Str(k, v).Logger()` chain from line 78 of `service.go`. -/
def Logger.withStr (l : Logger) (k v : String) : Logger :=
  { fields := l.fields ++ [(k, v)] }

/-- Modelled from the spec (§4.5): a cache value — its entries (`some v`
positive, `none` negative) together with whether it is the pass-through
no-op cache returned by `cache.NewNoopCache`. -/
structure Cache (V : Type) where
  isNoop : Bool := false
  entries : List (String × Option V) := []
deriving DecidableEq

/-- Modelled from the spec: `cache.NewNoopCache`, the pass-through no-op
cache that always misses and swallows writes. -/
def NewNoopCache (V : Type) : Cache V :=
  { isNoop := true, entries := [] }

/-- Cache `Get` (§4.5): `none` is a miss, `some (some v)` a hit,
`some none` a negative hit. -/
def Cache.get {V : Type} (c : Cache V) (k : String) : Option (Option V) :=
  if c.isNoop then none else c.entries.lookup k

/-- Cache `Set` (§4.5): store a positive entry. -/
def Cache.set {V : Type} (c : Cache V) (k : String) (v : V) : Cache V :=
  if c.isNoop then c else { c with entries := (k, some v) :: c.entries }

/-- Cache `SetNull` (§4.5): store a negative entry. -/
def Cache.setNull {V : Type} (c : Cache V) (k : String) : Cache V :=
  if c.isNoop then c else { c with entries := (k, none) :: c.entries }

/-- Cache `Remove` (§4.5). -/
def Cache.remove {V : Type} (c : Cache V) (k : String) : Cache V :=
  if c.isNoop then c else { c with entries := c.entries.filter (fun p => !(p.1 == k)) }

/-- The `Config` bundle of `service.go` (lines 32–45); each Go interface
field may be nil, modelled by `Option`.  `consitentRatelimit` keeps the
source's spelling. -/
structure Config where
  database : Option Database := none
  events : Option EventBus := none
  keyCache : Option (Cache Key) := none
  apiCache : Option (Cache Api) := none
  logger : Option Logger := none
  tracer : Option Tracer := none
  metrics : Option Metrics := none
  analytics : Option Analytics := none
  memoryRatelimit : Option Ratelimiter := none
  consitentRatelimit : Option Ratelimiter := none

/-- The `keyService` struct (lines 47–60).  The two cache fields are
non-optional because `New` always fills them; `logger` is non-optional
because `New` only succeeds after dereferencing the configured logger. -/
structure keyService where
  db : Option Database
  events : Option EventBus
  keyCache : Cache Key
  apiCache : Cache Api
  logger : Logger
  tracer : Option Tracer
  metrics : Option Metrics
  analytics : Option Analytics
  memoryRatelimit : Option Ratelimiter
  consitentRatelimit : Option Ratelimiter

/-- The `KeyService` interface (lines 17–21), as the method table of the
three operations; the collaborators' state is the explicit `World`. -/
structure KeyService where
  verifyKey : World → VerifyKeyRequest → VerifyResult
  createKey : World → Key → World × String
  softDeleteKey : World → String → World

/-- The method table of the base `keyService` (its collaborators are
modelled inside `World`, so the table is the pipeline itself, independent
of the handle fields). -/
def keyService.toService (_s : keyService) : KeyService :=
  { verifyKey := verifyKey, createKey := createKey, softDeleteKey := softDeleteKey }

/-- `Middleware` (line 62 of `service.go`). -/
abbrev Middleware : Type :=
  KeyService → KeyService

/-- Lines 64–84 of `New`: the nil-checks that default the two caches to
`NewNoopCache`, and the construction of the base `keyService` struct.
`config.Logger.With().Str("svc", "keys").Logger()` dereferences the
configured logger unconditionally; a nil logger makes the constructor
panic, modelled by `none`. -/
def newBase (config : Config) : Option keyService :=
  match config.logger with
  | none => none
  | some l =>
    some { db := config.database
           events := config.events
           keyCache := config.keyCache.getD (NewNoopCache Key)
           apiCache := config.apiCache.getD (NewNoopCache Api)
           logger := l.withStr "svc" "keys"
           tracer := config.tracer
           metrics := config.metrics
           analytics := config.analytics
           memoryRatelimit := config.memoryRatelimit
           consitentRatelimit := config.consitentRatelimit }

/-- `New` (lines 64–90 of `service.go`): builds the base service and then
wraps it with the middlewares in list order
(`for _, mw := range mws { svc = mw(svc) }`). -/
def New (config : Config) (mws : List Middleware) : Option KeyService :=
  (newBase config).map (fun base => mws.foldl (fun svc mw => mw svc) base.toService)

/-! ### Derived predicates used in theorem statements -/

/-- The response of a call when no error was thrown. -/
def okResp (r : VerifyResult) : Option VerifyKeyResponse :=
  r.out.toOption

/-- The IP-whitelist check of §4.2 step 5 passes (an empty or absent
whitelist disables the check). -/
@[reducible]
def ipAllowed (req : VerifyKeyRequest) (api : Api) : Prop :=
  ¬(api.ipWhitelist ≠ [] ∧ req.sourceIp ∉ api.ipWhitelist)

/-- The rate-limit step would allow this call: either the key carries no
policy, or the limiter's `Take` on the current bucket answers `allowed`. -/
def ratelimitAllows (w : World) (key : Key) : Prop :=
  match key.ratelimit with
  | none => True
  | some pol => (Take w.now pol (w.buckets.lookup (key.id, pol))).1 = true

/-- The remaining-usage step would not reject: either the key has no
`remaining` counter, or its stored value is at least 1. -/
def remainingPositive (k : Key) : Prop :=
  match k.remaining with
  | none => True
  | some r => 1 ≤ r

/-! ### Concrete records for scenarios, witnesses and counterexamples -/

/-- An API with no IP whitelist, for the key-auth group `ka_1`. -/
def plainApi : Api :=
  { id := "api_1", name := "test", workspaceId := "ws_1", keyAuthId := "ka_1" }

/-- An API whose whitelist contains exactly `100.100.100.100`, for the
key-auth group `ka_wl` (the tests' whitelist fixture). -/
def wlApi : Api :=
  { id := "api_wl", name := "test", workspaceId := "ws_1", keyAuthId := "ka_wl",
    ipWhitelist := ["100.100.100.100"] }

/-- The key of scenario 4 (§8): fast rate limit `{limit 2, refill_rate 1,
refill_interval 10000}`. -/
def rlKey : Key :=
  { id := "key_rl", keyAuthId := "ka_1", workspaceId := "ws_1",
    hash := sha256 "sec_rl", createdAt := 0,
    ratelimit := some { type := RatelimitType.fast, limit := 2,
                        refillRate := 1, refillInterval := 10000 } }

/-- World of scenario 4: the rate-limited key, its API, time 0. -/
def rlWorld : World :=
  { keys := [rlKey], apis := [plainApi] }

/-- Request presenting the rate-limited key's secret. -/
def rlReq : VerifyKeyRequest :=
  { key := "sec_rl" }

/-- First back-to-back call of scenario 4. -/
def rlR1 : VerifyResult := verifyKey rlWorld rlReq

/-- Second back-to-back call of scenario 4. -/
def rlR2 : VerifyResult := verifyKey rlR1.world rlReq

/-- Third back-to-back call of scenario 4. -/
def rlR3 : VerifyResult := verifyKey rlR2.world rlReq

/-- Fourth call of scenario 4, issued at the reset time reported by the
third (denied) response. -/
def rlR4 : VerifyResult := verifyKey { rlR3.world with now := 10000 } rlReq

/-- A key with `remaining = 3`, no policy, no expiry. -/
def quotaKey : Key :=
  { id := "key_q", keyAuthId := "ka_1", workspaceId := "ws_1",
    hash := sha256 "sec_q", createdAt := 0, remaining := some 3 }

/-- World holding `quotaKey` and its API. -/
def quotaWorld : World :=
  { keys := [quotaKey], apis := [plainApi] }

/-- Request presenting `quotaKey`'s secret. -/
def quotaReq : VerifyKeyRequest :=
  { key := "sec_q" }

/-- A key carrying both a rate-limit policy and a remaining counter. -/
def bothKey : Key :=
  { id := "key_b", keyAuthId := "ka_1", workspaceId := "ws_1",
    hash := sha256 "sec_b", createdAt := 0, remaining := some 5,
    ratelimit := some { type := RatelimitType.fast, limit := 2,
                        refillRate := 1, refillInterval := 10000 } }

/-- World holding `bothKey` and its API. -/
def bothWorld : World :=
  { keys := [bothKey], apis := [plainApi] }

/-- Request presenting `bothKey`'s secret. -/
def bothReq : VerifyKeyRequest :=
  { key := "sec_b" }

/-- A key whose remaining counter is already 0 (the exhausted-quota test
fixture). -/
def usedKey : Key :=
  { id := "key_u", keyAuthId := "ka_1", workspaceId := "ws_1",
    hash := sha256 "sec_u", createdAt := 0, remaining := some 0 }

/-- World holding `usedKey` and its API. -/
def usedWorld : World :=
  { keys := [usedKey], apis := [plainApi] }

/-- Request presenting `usedKey`'s secret. -/
def usedReq : VerifyKeyRequest :=
  { key := "sec_u" }

/-- A key whose remaining counter is 0 and whose `expires_at = 5` has
passed. -/
def usedExpKey : Key :=
  { id := "key_ue", keyAuthId := "ka_1", workspaceId := "ws_1",
    hash := sha256 "sec_ue", createdAt := 0, remaining := some 0,
    expires := some 5 }

/-- World holding `usedExpKey` at time 10 (past its expiry). -/
def usedExpWorld : World :=
  { keys := [usedExpKey], apis := [plainApi], now := 10 }

/-- Request presenting `usedExpKey`'s secret. -/
def usedExpReq : VerifyKeyRequest :=
  { key := "sec_ue" }

/-- An expired key (`expires_at = 5`) in the whitelisted API group. -/
def expWlKey : Key :=
  { id := "key_ew", keyAuthId := "ka_wl", workspaceId := "ws_1",
    hash := sha256 "sec_ew", createdAt := 0, expires := some 5 }

/-- World holding `expWlKey` and the whitelisted API at time 10. -/
def expWlWorld : World :=
  { keys := [expWlKey], apis := [wlApi], now := 10 }

/-- Request presenting `expWlKey`'s secret from a non-whitelisted
address. -/
def expWlReq : VerifyKeyRequest :=
  { key := "sec_ew", sourceIp := "1.2.3.4" }

/-- An expired key (`expires_at = 5`) in the plain API group. -/
def expKey : Key :=
  { id := "key_e", keyAuthId := "ka_1", workspaceId := "ws_1",
    hash := sha256 "sec_e", createdAt := 0, expires := some 5 }

/-- World holding `expKey` at time 10 (past its expiry). -/
def expWorld : World :=
  { keys := [expKey], apis := [plainApi], now := 10 }

/-- Request presenting `expKey`'s secret. -/
def expReq : VerifyKeyRequest :=
  { key := "sec_e" }

/-- A soft-deleted key in the whitelisted API group. -/
def delWlKey : Key :=
  { id := "key_d", keyAuthId := "ka_wl", workspaceId := "ws_1",
    hash := sha256 "sec_d", createdAt := 0, deleted := true }

/-- World holding `delWlKey` and the whitelisted API. -/
def delWlWorld : World :=
  { keys := [delWlKey], apis := [wlApi] }

/-- Request presenting `delWlKey`'s secret from a non-whitelisted
address. -/
def delWlReq : VerifyKeyRequest :=
  { key := "sec_d", sourceIp := "1.2.3.4" }

/-- A live key in the whitelisted API group. -/
def wlKey : Key :=
  { id := "key_w", keyAuthId := "ka_wl", workspaceId := "ws_1",
    hash := sha256 "sec_w", createdAt := 0 }

/-- World holding `wlKey` and the whitelisted API. -/
def wlWorld : World :=
  { keys := [wlKey], apis := [wlApi] }

/-- Request presenting `wlKey`'s secret from the whitelisted address. -/
def wlReq : VerifyKeyRequest :=
  { key := "sec_w", sourceIp := "100.100.100.100" }

/-- A configuration with only a logger set. -/
def cfg0 : Config :=
  { logger := some {} }

/-- A configuration with a logger but no tracer (and no other optional
collaborator). -/
def cfg9 : Config :=
  { logger := some {} }

/-- A middleware that records the effect tag `e` in front of the effects
of every `verifyKey` answer of the service it wraps: the tag of an outer
wrapper therefore appears before the tag of an inner one. -/
def mwTag (e : Effect) : Middleware :=
  fun s =>
    { s with verifyKey := fun w r =>
        let o := s.verifyKey w r
        { o with effects := e :: o.effects } }

/-! ### Helper lemmas about the pipeline stages -/

/-- `decKey` leaves the stored hash unchanged. -/
theorem decKey_hash (i : String) (k : Key) : (decKey i k).hash = k.hash := by
  unfold decKey
  split <;> rfl

/-- `decKey` leaves the identifier unchanged. -/
theorem decKey_id (i : String) (k : Key) : (decKey i k).id = k.id := by
  unfold decKey
  split <;> rfl

/-- Decrementing the record with the key's own id yields the same record
with the counter one lower. -/
theorem decKey_self (key : Key) (n : Int) (hrem : key.remaining = some n) :
    decKey key.id key = { key with remaining := some (n - 1) } := by
  unfold decKey
  simp [hrem]

/-- Searching by hash commutes with the decrement map. -/
theorem find?_hash_map_decKey (l : List Key) (i h : String) :
    (l.map (decKey i)).find? (fun k => k.hash == h)
      = (l.find? (fun k => k.hash == h)).map (decKey i) := by
  rw [List.find?_map]
  have hp : ((fun k => k.hash == h) ∘ decKey i) = (fun (k : Key) => k.hash == h) := by
    funext k
    simp [Function.comp, decKey_hash]
  rw [hp]

/-- Searching by id commutes with the decrement map. -/
theorem find?_id_map_decKey (l : List Key) (i j : String) :
    (l.map (decKey i)).find? (fun k => k.id == j)
      = (l.find? (fun k => k.id == j)).map (decKey i) := by
  rw [List.find?_map]
  have hp : ((fun k => k.id == j) ∘ decKey i) = (fun (k : Key) => k.id == j) := by
    funext k
    simp [Function.comp, decKey_id]
  rw [hp]

/-- When the request is non-empty, the key record resolves and is not
soft-deleted, and the API record resolves, `verifyKey` reduces to the
check stage. -/
theorem verifyKey_resolves (w : World) (req : VerifyKeyRequest) (key : Key) (api : Api)
    (hreq : req.key ≠ "") (hfind : findKeyByHash w (sha256 req.key) = some key)
    (hdel : key.deleted = false)
    (hapi : findApiByKeyAuthId w key.keyAuthId = some api) :
    verifyKey w req = applyChecks w req key api := by
  unfold verifyKey
  rw [if_neg hreq]
  simp [hfind, hapi, hdel]

/-- When the whitelist and expiry checks pass, the check stage reduces to
the rate-limit stage. -/
theorem applyChecks_pass (w : World) (req : VerifyKeyRequest) (key : Key) (api : Api)
    (hip : ipAllowed req api) (hexp : keyExpired key w.now = false) :
    applyChecks w req key api = applyRatelimit w key api := by
  unfold ipAllowed at hip
  unfold applyChecks
  rw [if_neg hip, hexp]
  simp

/-- When the rate-limit step allows the call, the rate-limit stage hands
over to the remaining-usage stage, with the database rows and the publish
counter untouched and neither a publish nor a decrement effect yet. -/
theorem applyRatelimit_allows (w : World) (key : Key) (api : Api)
    (hrl : ratelimitAllows w key) :
    ∃ w1 rl effs, applyRatelimit w key api = finishRemaining w1 key api rl effs
      ∧ w1.keys = w.keys ∧ w1.publishCount = w.publishCount
      ∧ Effect.publish ∉ effs ∧ Effect.decrementRemaining ∉ effs := by
  unfold ratelimitAllows at hrl
  cases hpol : key.ratelimit with
  | none =>
    refine ⟨w, none, [Effect.findKey, Effect.findApi], ?_, rfl, rfl, by decide, by decide⟩
    unfold applyRatelimit
    rw [hpol]
  | some pol =>
    rw [hpol] at hrl
    unfold applyRatelimit
    simp only [hpol, hrl, if_true]
    exact ⟨_, _, _, rfl, rfl, rfl, by decide, by decide⟩

/-- With the record holding a counter of at least 1, the remaining-usage
stage decrements it, echoes the post-decrement value and succeeds. -/
theorem finishRemaining_decrements (w : World) (key : Key) (api : Api)
    (rl : Option RatelimitState) (effs : List Effect) (n : Int)
    (hid : w.keys.find? (fun kk => kk.id == key.id) = some key)
    (hrem : key.remaining = some n) (hn : 1 ≤ n) :
    finishRemaining w key api rl effs =
      { out := Except.ok (successResponse key api (some (n - 1)) rl),
        world := publishKeyVerificationEvent { w with keys := w.keys.map (decKey key.id) },
        effects := effs ++ [Effect.decrementRemaining, Effect.publish] } := by
  have h2 : (w.keys.map (decKey key.id)).find? (fun k => k.id == key.id)
      = some (decKey key.id key) := by
    rw [find?_id_map_decKey, hid]
    rfl
  unfold finishRemaining
  simp only [hrem]
  rw [if_neg (by omega : ¬ n ≤ 0)]
  unfold decrementRemainingKeyUsage
  simp only [h2, decKey_self key n hrem, Option.some_bind, Option.getD_some]
  rw [if_neg (by omega : ¬ n - 1 < 0)]

/-- With the record's counter exhausted (`≤ 0`), the remaining-usage stage
rejects with `remaining = 0` and still publishes. -/
theorem finishRemaining_exhausted (w : World) (key : Key) (api : Api)
    (rl : Option RatelimitState) (effs : List Effect) (r : Int)
    (hrem : key.remaining = some r) (hr : r ≤ 0) :
    finishRemaining w key api rl effs =
      { out := Except.ok { valid := false, code := some ErrorCode.USAGE_EXCEEDED,
                           remaining := some 0, ratelimit := rl },
        world := publishKeyVerificationEvent w,
        effects := effs ++ [Effect.publish] } := by
  unfold finishRemaining
  simp only [hrem]
  rw [if_pos hr]

/-- The remaining-usage stage never answers `FORBIDDEN`. -/
theorem finishRemaining_not_forbidden (w : World) (key : Key) (api : Api)
    (rl : Option RatelimitState) (effs : List Effect) (resp : VerifyKeyResponse)
    (h : (finishRemaining w key api rl effs).out = Except.ok resp) :
    resp.code ≠ some ErrorCode.FORBIDDEN := by
  simp only [finishRemaining] at h
  split at h
  · simp only [Except.ok.injEq] at h
    subst h
    simp [successResponse]
  · split at h
    · simp only [Except.ok.injEq] at h
      subst h
      simp
    · split at h
      · simp only [Except.ok.injEq] at h
        subst h
        simp
      · simp only [Except.ok.injEq] at h
        subst h
        simp [successResponse]

/-- The rate-limit stage never answers `FORBIDDEN`. -/
theorem applyRatelimit_not_forbidden (w : World) (key : Key) (api : Api)
    (resp : VerifyKeyResponse)
    (h : (applyRatelimit w key api).out = Except.ok resp) :
    resp.code ≠ some ErrorCode.FORBIDDEN := by
  simp only [applyRatelimit] at h
  split at h
  · exact finishRemaining_not_forbidden _ _ _ _ _ _ h
  · split at h
    · exact finishRemaining_not_forbidden _ _ _ _ _ _ h
    · simp only [Except.ok.injEq] at h
      subst h
      simp

/-- The remaining-usage stage either performs no decrement, or it appends
exactly a decrement and a publish to the prior trace and does not answer
a rate-limit denial. -/
theorem finishRemaining_branches (w : World) (key : Key) (api : Api)
    (rl : Option RatelimitState) (effs : List Effect)
    (hde : Effect.decrementRemaining ∉ effs) :
    Effect.decrementRemaining ∉ (finishRemaining w key api rl effs).effects
    ∨ ((finishRemaining w key api rl effs).effects
          = effs ++ [Effect.decrementRemaining, Effect.publish]
       ∧ ∀ resp, (finishRemaining w key api rl effs).out = Except.ok resp →
           resp.code ≠ some ErrorCode.RATELIMITED) := by
  cases hrem : key.remaining with
  | none =>
    left
    simp [finishRemaining, hrem, hde]
  | some r =>
    by_cases hr : r ≤ 0
    · left
      simp [finishRemaining, hrem, hr, hde]
    · right
      by_cases hneg : ((decrementRemainingKeyUsage w key.id).2.bind Key.remaining).getD (r - 1) < 0
      · constructor
        · simp [finishRemaining, hrem, hr, hneg]
        · intro resp hok
          simp only [finishRemaining, hrem, hr, hneg, if_true, if_false] at hok
          simp only [if_neg hr, if_pos hneg, Except.ok.injEq] at hok
          subst hok
          simp
      · constructor
        · simp [finishRemaining, hrem, hr, hneg]
        · intro resp hok
          simp only [finishRemaining, hrem] at hok
          simp only [if_neg hr, if_neg hneg, Except.ok.injEq] at hok
          subst hok
          simp [successResponse]

/-- The rate-limit stage either performs no decrement, or its trace is one
of the two decrementing traces (the rate-limit call, when made, coming
before the decrement) and its outcome is not a rate-limit denial. -/
theorem applyRatelimit_branches (w : World) (key : Key) (api : Api) :
    Effect.decrementRemaining ∉ (applyRatelimit w key api).effects
    ∨ (((applyRatelimit w key api).effects
          = [Effect.findKey, Effect.findApi, Effect.ratelimitTake,
             Effect.decrementRemaining, Effect.publish]
        ∨ (applyRatelimit w key api).effects
          = [Effect.findKey, Effect.findApi, Effect.decrementRemaining, Effect.publish])
       ∧ ∀ resp, (applyRatelimit w key api).out = Except.ok resp →
           resp.code ≠ some ErrorCode.RATELIMITED) := by
  cases hpol : key.ratelimit with
  | none =>
    have heq : applyRatelimit w key api
        = finishRemaining w key api none [Effect.findKey, Effect.findApi] := by
      unfold applyRatelimit
      rw [hpol]
    rw [heq]
    rcases finishRemaining_branches w key api none [Effect.findKey, Effect.findApi]
        (by decide) with h | ⟨hsh, hcd⟩
    · exact Or.inl h
    · exact Or.inr ⟨Or.inr (by rw [hsh]; rfl), hcd⟩
  | some pol =>
    by_cases ht : (Take w.now pol (w.buckets.lookup (key.id, pol))).1 = true
    · have heq : applyRatelimit w key api
          = finishRemaining
              (World.mk w.keys w.apis
                (setBucket w.buckets (key.id, pol) ((Take w.now pol (w.buckets.lookup (key.id, pol))).2.2))
                w.publishCount w.now)
              key api
              (some ((Take w.now pol (w.buckets.lookup (key.id, pol))).2.1))
              [Effect.findKey, Effect.findApi, Effect.ratelimitTake] := by
        unfold applyRatelimit
        simp only [hpol, ht, if_true]
      rw [heq]
      rcases finishRemaining_branches _ key api _
          [Effect.findKey, Effect.findApi, Effect.ratelimitTake] (by decide) with h | ⟨hsh, hcd⟩
      · exact Or.inl h
      · exact Or.inr ⟨Or.inl (by rw [hsh]; rfl), hcd⟩
    · left
      unfold applyRatelimit
      simp only [hpol]
      rw [if_neg ht]
      simp

/-- Every execution path of `verifyKey` either makes no decrement call,
or its trace is one of the two decrementing traces (in both of which any
rate-limit call precedes the decrement) and its outcome is not a
rate-limit denial. -/
theorem verifyKey_branches (w : World) (req : VerifyKeyRequest) :
    Effect.decrementRemaining ∉ (verifyKey w req).effects
    ∨ (((verifyKey w req).effects
          = [Effect.findKey, Effect.findApi, Effect.ratelimitTake,
             Effect.decrementRemaining, Effect.publish]
        ∨ (verifyKey w req).effects
          = [Effect.findKey, Effect.findApi, Effect.decrementRemaining, Effect.publish])
       ∧ ∀ resp, (verifyKey w req).out = Except.ok resp →
           resp.code ≠ some ErrorCode.RATELIMITED) := by
  by_cases hreq : req.key = ""
  · left
    unfold verifyKey
    rw [if_pos hreq]
    simp
  · cases hfind : findKeyByHash w (sha256 req.key) with
    | none =>
      left
      unfold verifyKey
      rw [if_neg hreq]
      simp [hfind]
    | some key =>
      by_cases hdel : key.deleted = true
      · left
        unfold verifyKey
        rw [if_neg hreq]
        simp [hfind, hdel]
      · have hdel' : key.deleted = false := by simpa using hdel
        cases hapi : findApiByKeyAuthId w key.keyAuthId with
        | none =>
          left
          unfold verifyKey
          rw [if_neg hreq]
          simp [hfind, hdel', hapi]
        | some api =>
          rw [verifyKey_resolves w req key api hreq hfind hdel' hapi]
          by_cases hblock : api.ipWhitelist ≠ [] ∧ req.sourceIp ∉ api.ipWhitelist
          · left
            unfold applyChecks
            rw [if_pos hblock]
            simp
          · by_cases hexp : keyExpired key w.now = true
            · left
              unfold applyChecks
              rw [if_neg hblock, hexp]
              simp
            · rw [applyChecks_pass w req key api hblock (by simpa using hexp)]
              exact applyRatelimit_branches w key api

/-! ### Theorems -/

/-- Claim C2: under the claim's "passes all other checks" guards (the key
resolves by hash and by id, is not soft-deleted, its API resolves, the
whitelist, expiry and rate-limit checks pass), a verification of a key
whose stored counter is `n ≥ 1` succeeds with the response echoing
`n − 1` and the persisted counter becoming `n − 1`; and once the stored
counter is 0, a further verification returns `valid = false` with
`remaining = 0`. -/
theorem verifyKey_remaining_quota (w : World) (req : VerifyKeyRequest) (key : Key) (api : Api)
    (hreq : req.key ≠ "")
    (hfind : findKeyByHash w (sha256 req.key) = some key)
    (hid : w.keys.find? (fun kk => kk.id == key.id) = some key)
    (hdel : key.deleted = false)
    (hapi : findApiByKeyAuthId w key.keyAuthId = some api)
    (hip : ipAllowed req api) (hexp : keyExpired key w.now = false)
    (hrl : ratelimitAllows w key) :
    (∀ n : Int, key.remaining = some n → 1 ≤ n →
      ∃ resp, (verifyKey w req).out = Except.ok resp
        ∧ resp.valid = true ∧ resp.remaining = some (n - 1)
        ∧ findKeyByHash (verifyKey w req).world (sha256 req.key)
            = some { key with remaining := some (n - 1) })
    ∧ (key.remaining = some 0 →
      ∃ resp, (verifyKey w req).out = Except.ok resp
        ∧ resp.valid = false ∧ resp.remaining = some 0) := by
  rw [verifyKey_resolves w req key api hreq hfind hdel hapi,
    applyChecks_pass w req key api hip hexp]
  obtain ⟨w1, rl, effs, heq, hkeys, hpub, hpe, hde⟩ := applyRatelimit_allows w key api hrl
  rw [heq]
  constructor
  · intro n hrem hn
    rw [finishRemaining_decrements w1 key api rl effs n (by rw [hkeys]; exact hid) hrem hn]
    refine ⟨_, rfl, rfl, rfl, ?_⟩
    show findKeyByHash
      (publishKeyVerificationEvent { w1 with keys := w1.keys.map (decKey key.id) })
      (sha256 req.key) = _
    unfold findKeyByHash publishKeyVerificationEvent
    unfold findKeyByHash at hfind
    simp only
    rw [hkeys, find?_hash_map_decKey, hfind]
    simp only [Option.map_some', decKey_self key n hrem]
  · intro hrem0
    rw [finishRemaining_exhausted w1 key api rl effs 0 hrem0 le_rfl]
    exact ⟨_, rfl, rfl, rfl⟩

/-- Witness for C2: verifying the concrete key with `remaining = 3`
succeeds, echoes 2 and persists 2. -/
theorem verifyKey_remaining_quota_witness :
    ∃ resp, (verifyKey quotaWorld quotaReq).out = Except.ok resp
      ∧ resp.valid = true ∧ resp.remaining = some (3 - 1)
      ∧ findKeyByHash (verifyKey quotaWorld quotaReq).world (sha256 quotaReq.key)
          = some { quotaKey with remaining := some (3 - 1) } :=
  (verifyKey_remaining_quota quotaWorld quotaReq quotaKey plainApi (by decide) (by decide)
      (by decide) rfl (by decide) (by decide) rfl trivial).1 3 rfl (by decide)

/-- Claim C3: in every `VerifyKey` call, a response denied by the rate
limiter (`code = RATELIMITED`) involves no decrement call, and whenever
a call makes both a rate-limit call and a decrement call, the rate-limit
call comes first in the trace. -/
theorem verifyKey_ratelimit_precedes_decrement (w : World) (req : VerifyKeyRequest) :
    (∀ resp, (verifyKey w req).out = Except.ok resp →
        resp.code = some ErrorCode.RATELIMITED →
        Effect.decrementRemaining ∉ (verifyKey w req).effects)
    ∧ (Effect.decrementRemaining ∈ (verifyKey w req).effects →
        Effect.ratelimitTake ∈ (verifyKey w req).effects →
        (verifyKey w req).effects.indexOf Effect.ratelimitTake
          < (verifyKey w req).effects.indexOf Effect.decrementRemaining) := by
  obtain hno | ⟨hsh, hcode⟩ := verifyKey_branches w req
  · exact ⟨fun resp _ _ => hno, fun hdec _ => absurd hdec hno⟩
  · refine ⟨fun resp hok hcd => absurd hcd (hcode resp hok), fun hdec htake => ?_⟩
    rcases hsh with h | h
    · rw [h]
      decide
    · rw [h] at htake
      exact absurd htake (by decide)

/-- Witness for C3: the key carrying both a rate-limit policy and a
remaining counter produces a trace with the rate-limit call strictly
before the decrement. -/
theorem verifyKey_ratelimit_precedes_decrement_witness :
    (verifyKey bothWorld bothReq).effects.indexOf Effect.ratelimitTake
      < (verifyKey bothWorld bothReq).effects.indexOf Effect.decrementRemaining :=
  (verifyKey_ratelimit_precedes_decrement bothWorld bothReq).2 (by decide) (by decide)

/-- Claim C4, counterexample: `usedExpKey` has stored `remaining = 0`
(that is, `≤ 0` before decrement), yet the `VerifyKey` call on it
returns a response whose `remaining` field is unset (`none`), not 0,
because the key is also expired and the expiry branch answers first —
so the claim is false at this input. -/
theorem verifyKey_usage_exceeded_cex :
    usedExpKey.remaining = some 0
    ∧ (okResp (verifyKey usedExpWorld usedExpReq)).map VerifyKeyResponse.valid = some false
    ∧ (okResp (verifyKey usedExpWorld usedExpReq)).map VerifyKeyResponse.remaining = some none
    ∧ (some (none : Option Int)) ≠ some (some 0) := by
  decide

/-- Claim C4, amended: when the call reaches the remaining-usage step
(the key resolves, is not soft-deleted, its API resolves, and the
whitelist, expiry and rate-limit checks pass) and the stored counter is
`≤ 0` before decrement, the call returns `valid = false` with
`remaining = 0` and still publishes exactly one analytics event. -/
theorem verifyKey_usage_exceeded_reports (w : World) (req : VerifyKeyRequest)
    (key : Key) (api : Api)
    (hreq : req.key ≠ "")
    (hfind : findKeyByHash w (sha256 req.key) = some key)
    (hdel : key.deleted = false)
    (hapi : findApiByKeyAuthId w key.keyAuthId = some api)
    (hip : ipAllowed req api) (hexp : keyExpired key w.now = false)
    (hrl : ratelimitAllows w key) (r : Int)
    (hrem : key.remaining = some r) (hr : r ≤ 0) :
    ∃ resp, (verifyKey w req).out = Except.ok resp
      ∧ resp.valid = false ∧ resp.remaining = some 0
      ∧ (verifyKey w req).world.publishCount = w.publishCount + 1
      ∧ (verifyKey w req).effects.count Effect.publish = 1 := by
  rw [verifyKey_resolves w req key api hreq hfind hdel hapi,
    applyChecks_pass w req key api hip hexp]
  obtain ⟨w1, rl, effs, heq, hkeys, hpub, hpe, hde⟩ := applyRatelimit_allows w key api hrl
  rw [heq]
  rw [finishRemaining_exhausted w1 key api rl effs r hrem hr]
  refine ⟨_, rfl, rfl, rfl, ?_, ?_⟩
  · show (publishKeyVerificationEvent w1).publishCount = w.publishCount + 1
    unfold publishKeyVerificationEvent
    simp [hpub]
  · show (effs ++ [Effect.publish]).count Effect.publish = 1
    rw [List.count_append]
    rw [List.count_eq_zero.mpr hpe]
    rfl

/-- Witness for the amended C4: the key with `remaining = 0` yields
`valid = false`, `remaining = 0`, and one analytics publish. -/
theorem verifyKey_usage_exceeded_reports_witness :
    ∃ resp, (verifyKey usedWorld usedReq).out = Except.ok resp
      ∧ resp.valid = false ∧ resp.remaining = some 0
      ∧ (verifyKey usedWorld usedReq).world.publishCount = usedWorld.publishCount + 1
      ∧ (verifyKey usedWorld usedReq).effects.count Effect.publish = 1 :=
  verifyKey_usage_exceeded_reports usedWorld usedReq usedKey plainApi (by decide) (by decide)
    rfl (by decide) (by decide) rfl trivial 0 rfl le_rfl

/-- Claim C6, counterexample: `expWlKey` is expired (`expires_at = 5 ≤
now = 10`), yet the `VerifyKey` call on it answers `FORBIDDEN`, not
`NOT_FOUND`, because the IP-whitelist check of the pipeline precedes the
expiration check and the request's source address is not whitelisted —
so the claim is false at this input. -/
theorem verifyKey_expired_cex :
    keyExpired expWlKey expWlWorld.now = true
    ∧ (okResp (verifyKey expWlWorld expWlReq)).map VerifyKeyResponse.code
        = some (some ErrorCode.FORBIDDEN)
    ∧ some (some ErrorCode.FORBIDDEN) ≠ some (some ErrorCode.NOT_FOUND) := by
  decide

/-- Claim C6, amended: when the earlier pipeline steps pass (the key
resolves, is not soft-deleted, its API resolves and the IP whitelist
admits the caller), a `VerifyKey` call on a key with
`expires_at ≤ now()` returns `valid = false` with code `NOT_FOUND`,
performs no rate-limit call, and performs no remaining-usage
decrement. -/
theorem verifyKey_expired_not_found (w : World) (req : VerifyKeyRequest)
    (key : Key) (api : Api)
    (hreq : req.key ≠ "")
    (hfind : findKeyByHash w (sha256 req.key) = some key)
    (hdel : key.deleted = false)
    (hapi : findApiByKeyAuthId w key.keyAuthId = some api)
    (hip : ipAllowed req api) (hexp : keyExpired key w.now = true) :
    ∃ resp, (verifyKey w req).out = Except.ok resp
      ∧ resp.valid = false ∧ resp.code = some ErrorCode.NOT_FOUND
      ∧ Effect.ratelimitTake ∉ (verifyKey w req).effects
      ∧ Effect.decrementRemaining ∉ (verifyKey w req).effects := by
  rw [verifyKey_resolves w req key api hreq hfind hdel hapi]
  unfold ipAllowed at hip
  have hstep : applyChecks w req key api =
      { out := Except.ok { valid := false, code := some ErrorCode.NOT_FOUND },
        world := publishKeyVerificationEvent w,
        effects := [Effect.findKey, Effect.findApi, Effect.publish] } := by
    unfold applyChecks
    rw [if_neg hip, hexp]
    simp
  rw [hstep]
  exact ⟨_, rfl, rfl, rfl,
    (by decide : Effect.ratelimitTake ∉ [Effect.findKey, Effect.findApi, Effect.publish]),
    (by decide : Effect.decrementRemaining ∉ [Effect.findKey, Effect.findApi, Effect.publish])⟩

/-- Witness for the amended C6: the expired key in the plain API group
yields `NOT_FOUND` with no rate-limit call and no decrement. -/
theorem verifyKey_expired_not_found_witness :
    ∃ resp, (verifyKey expWorld expReq).out = Except.ok resp
      ∧ resp.valid = false ∧ resp.code = some ErrorCode.NOT_FOUND
      ∧ Effect.ratelimitTake ∉ (verifyKey expWorld expReq).effects
      ∧ Effect.decrementRemaining ∉ (verifyKey expWorld expReq).effects :=
  verifyKey_expired_not_found expWorld expReq expKey plainApi (by decide) (by decide)
    rfl (by decide) (by decide) rfl

/-- Claim C7: a `VerifyKey` request whose `key` field is the empty string
fails with a thrown `BAD_REQUEST` error (not a `valid = false` response),
leaves the collaborator state unchanged and makes no collaborator call. -/
theorem verifyKey_empty_key_bad_request (w : World) (req : VerifyKeyRequest)
    (h : req.key = "") :
    verifyKey w req =
      { out := Except.error ErrorCode.BAD_REQUEST, world := w, effects := [] } := by
  unfold verifyKey
  rw [if_pos h]

/-- Witness for C7: the empty-key request on the empty world throws
`BAD_REQUEST` with no state change and no effects. -/
theorem verifyKey_empty_key_bad_request_witness :
    verifyKey {} { key := "" } =
      { out := Except.error ErrorCode.BAD_REQUEST, world := {}, effects := [] } :=
  verifyKey_empty_key_bad_request {} { key := "" } rfl

/-- Claim C1, counterexample: with two tagging middlewares listed as
`[mwTag findKey, mwTag findApi]`, a call to `verifyKey` of the service
built by `New` yields the tag of the SECOND-listed middleware first —
the last-listed middleware is the outermost wrapper, so the claim that
the first-listed middleware is outermost at call time is false at this
input. -/
theorem New_first_middleware_outermost_cex :
    (New cfg0 [mwTag Effect.findKey, mwTag Effect.findApi]).map
        (fun s => (s.verifyKey {} { key := "" }).effects)
      = some [Effect.findApi, Effect.findKey]
    ∧ [Effect.findApi, Effect.findKey] ≠ [Effect.findKey, Effect.findApi] :=
  ⟨rfl, by decide⟩

/-- Claim C1, amended: `New` applies the middlewares left to right with
the base service innermost, so the LAST middleware of the list is the
outermost wrapper at call time: appending a middleware `m` to the list
wraps the whole previously constructed service in `m`. -/
theorem New_last_middleware_outermost (config : Config) (mws : List Middleware)
    (m : Middleware) :
    New config (mws ++ [m]) = (New config mws).map m := by
  unfold New
  cases newBase config with
  | none => rfl
  | some b => simp [List.foldl_append]

/-- Claim C5: for the key with fast rate-limit policy
`{limit 2, refill_rate 1, refill_interval 10000}`, three back-to-back
calls return `(valid, remaining 1)`, `(valid, remaining 0)`,
`(invalid, RATELIMITED, remaining 0)`; a call at the reported `reset_at`
returns `valid` with `remaining 0` (one token refilled); and all four
responses — the denial included — carry a populated `ratelimit` field. -/
theorem verifyKey_fast_ratelimit_scenario :
    (okResp rlR1).map (fun r => (r.valid, r.code, r.ratelimit))
        = some (true, none, some { limit := 2, remaining := 1, resetAt := 10000 })
    ∧ (okResp rlR2).map (fun r => (r.valid, r.code, r.ratelimit))
        = some (true, none, some { limit := 2, remaining := 0, resetAt := 10000 })
    ∧ (okResp rlR3).map (fun r => (r.valid, r.code, r.ratelimit))
        = some (false, some ErrorCode.RATELIMITED,
                some { limit := 2, remaining := 0, resetAt := 10000 })
    ∧ (okResp rlR4).map (fun r => (r.valid, r.code, r.ratelimit))
        = some (true, none, some { limit := 2, remaining := 0, resetAt := 20000 }) := by
  decide

/-- Claim C8, counterexample: `delWlKey` is soft-deleted; its API has the
non-empty whitelist `["100.100.100.100"]` and the request's source
address `1.2.3.4` is not a member, yet the call answers `NOT_FOUND`
(the soft-delete check precedes the whitelist check), not `FORBIDDEN` —
so the claim, which predicts `FORBIDDEN` for every call whose key's API
carries a non-matching whitelist, is false at this input. -/
theorem verifyKey_ip_whitelist_cex :
    wlApi.ipWhitelist ≠ []
    ∧ delWlReq.sourceIp ∉ wlApi.ipWhitelist
    ∧ findApiByKeyAuthId delWlWorld delWlKey.keyAuthId = some wlApi
    ∧ (okResp (verifyKey delWlWorld delWlReq)).map VerifyKeyResponse.code
        = some (some ErrorCode.NOT_FOUND)
    ∧ some (some ErrorCode.NOT_FOUND) ≠ some (some ErrorCode.FORBIDDEN) := by
  decide

/-- Claim C8, amended: for a call whose key resolves, is not soft-deleted
and whose API resolves — if the API's whitelist is non-empty and the
source address is not an exact member, the call returns `valid = false`
with code `FORBIDDEN`; if the address is a member and the remaining
checks pass, the call returns `valid = true`; and an empty whitelist
disables the check entirely (no outcome of the call is `FORBIDDEN`). -/
theorem verifyKey_ip_whitelist (w : World) (req : VerifyKeyRequest) (key : Key) (api : Api)
    (hreq : req.key ≠ "")
    (hfind : findKeyByHash w (sha256 req.key) = some key)
    (hid : w.keys.find? (fun kk => kk.id == key.id) = some key)
    (hdel : key.deleted = false)
    (hapi : findApiByKeyAuthId w key.keyAuthId = some api) :
    (api.ipWhitelist ≠ [] → req.sourceIp ∉ api.ipWhitelist →
      ∃ resp, (verifyKey w req).out = Except.ok resp
        ∧ resp.valid = false ∧ resp.code = some ErrorCode.FORBIDDEN)
    ∧ (req.sourceIp ∈ api.ipWhitelist → keyExpired key w.now = false →
        ratelimitAllows w key → remainingPositive key →
      ∃ resp, (verifyKey w req).out = Except.ok resp ∧ resp.valid = true)
    ∧ (api.ipWhitelist = [] →
        ∀ resp, (verifyKey w req).out = Except.ok resp →
          resp.code ≠ some ErrorCode.FORBIDDEN) := by
  rw [verifyKey_resolves w req key api hreq hfind hdel hapi]
  refine ⟨?_, ?_, ?_⟩
  · intro hne hnm
    have hblock : applyChecks w req key api =
        { out := Except.ok { valid := false, code := some ErrorCode.FORBIDDEN },
          world := publishKeyVerificationEvent w,
          effects := [Effect.findKey, Effect.findApi, Effect.publish] } := by
      unfold applyChecks
      rw [if_pos ⟨hne, hnm⟩]
    rw [hblock]
    exact ⟨_, rfl, rfl, rfl⟩
  · intro hmem hexp hrl hpos
    have hip : ipAllowed req api := fun hc => hc.2 hmem
    rw [applyChecks_pass w req key api hip hexp]
    obtain ⟨w1, rl, effs, heq, hkeys, hpub, hpe, hde⟩ := applyRatelimit_allows w key api hrl
    rw [heq]
    unfold remainingPositive at hpos
    cases hrem : key.remaining with
    | none =>
      have hfin : finishRemaining w1 key api rl effs =
          { out := Except.ok (successResponse key api none rl),
            world := publishKeyVerificationEvent w1,
            effects := effs ++ [Effect.publish] } := by
        unfold finishRemaining
        simp only [hrem]
      rw [hfin]
      exact ⟨_, rfl, rfl⟩
    | some r =>
      simp only [hrem] at hpos
      rw [finishRemaining_decrements w1 key api rl effs r (by rw [hkeys]; exact hid) hrem hpos]
      exact ⟨_, rfl, rfl⟩
  · intro hempty resp hok
    have hip : ipAllowed req api := fun hc => hc.1 hempty
    by_cases hexp : keyExpired key w.now = true
    · have hstep : applyChecks w req key api =
          { out := Except.ok { valid := false, code := some ErrorCode.NOT_FOUND },
            world := publishKeyVerificationEvent w,
            effects := [Effect.findKey, Effect.findApi, Effect.publish] } := by
        unfold applyChecks
        rw [if_neg hip, hexp]
        simp
      rw [hstep] at hok
      simp only [Except.ok.injEq] at hok
      subst hok
      simp
    · rw [applyChecks_pass w req key api hip (by simpa using hexp)] at hok
      exact applyRatelimit_not_forbidden w key api resp hok

/-- Witness for the amended C8: the whitelisted request on the live key
succeeds. -/
theorem verifyKey_ip_whitelist_witness :
    ∃ resp, (verifyKey wlWorld wlReq).out = Except.ok resp ∧ resp.valid = true :=
  (verifyKey_ip_whitelist wlWorld wlReq wlKey wlApi (by decide) (by decide) (by decide)
      rfl (by decide)).2.1 (by decide) rfl trivial trivial

/-- Claim C9, counterexample: in the configuration `cfg9` the tracer is
left unset, yet the service constructed by `New`'s base builder still has
no tracer at all — the unset optional collaborator was NOT replaced by
any no-op fallback, so the claim that every unset optional collaborator
gets a no-op fallback is false at this input. -/
theorem newBase_no_tracer_fallback_cex :
    cfg9.tracer = none ∧ (newBase cfg9).map keyService.tracer = some none :=
  ⟨rfl, rfl⟩

/-- Claim C9, amended: `New` substitutes no-op fallbacks only for the two
caches — an unset key cache or API cache becomes the pass-through no-op
cache that always misses and swallows writes — while every other
collaborator of the configuration is stored exactly as given, with no
fallback. -/
theorem newBase_cache_fallbacks (config : Config) (l : Logger)
    (hl : config.logger = some l) :
    ∃ b, newBase config = some b
      ∧ b.keyCache = config.keyCache.getD (NewNoopCache Key)
      ∧ b.apiCache = config.apiCache.getD (NewNoopCache Api)
      ∧ (∀ k, (NewNoopCache Key).get k = none)
      ∧ (∀ k v, (NewNoopCache Key).set k v = NewNoopCache Key)
      ∧ (∀ k, (NewNoopCache Key).setNull k = NewNoopCache Key)
      ∧ (∀ k, (NewNoopCache Key).remove k = NewNoopCache Key)
      ∧ (∀ k, (NewNoopCache Api).get k = none)
      ∧ (∀ k v, (NewNoopCache Api).set k v = NewNoopCache Api)
      ∧ (∀ k, (NewNoopCache Api).setNull k = NewNoopCache Api)
      ∧ (∀ k, (NewNoopCache Api).remove k = NewNoopCache Api)
      ∧ b.db = config.database ∧ b.events = config.events
      ∧ b.tracer = config.tracer ∧ b.metrics = config.metrics
      ∧ b.analytics = config.analytics
      ∧ b.memoryRatelimit = config.memoryRatelimit
      ∧ b.consitentRatelimit = config.consitentRatelimit := by
  have hb : newBase config =
      some { db := config.database, events := config.events,
             keyCache := config.keyCache.getD (NewNoopCache Key),
             apiCache := config.apiCache.getD (NewNoopCache Api),
             logger := l.withStr "svc" "keys",
             tracer := config.tracer, metrics := config.metrics,
             analytics := config.analytics,
             memoryRatelimit := config.memoryRatelimit,
             consitentRatelimit := config.consitentRatelimit } := by
    unfold newBase
    rw [hl]
  exact ⟨_, hb, rfl, rfl, fun k => rfl, fun k v => rfl, fun k => rfl, fun k => rfl,
    fun k => rfl, fun k v => rfl, fun k => rfl, fun k => rfl,
    rfl, rfl, rfl, rfl, rfl, rfl, rfl⟩

/-- Witness for the amended C9: the cache fallbacks and verbatim storage
hold for the concrete configuration `cfg9`. -/
theorem newBase_cache_fallbacks_witness :
    ∃ b, newBase cfg9 = some b
      ∧ b.keyCache = cfg9.keyCache.getD (NewNoopCache Key)
      ∧ b.apiCache = cfg9.apiCache.getD (NewNoopCache Api)
      ∧ (∀ k, (NewNoopCache Key).get k = none)
      ∧ (∀ k v, (NewNoopCache Key).set k v = NewNoopCache Key)
      ∧ (∀ k, (NewNoopCache Key).setNull k = NewNoopCache Key)
      ∧ (∀ k, (NewNoopCache Key).remove k = NewNoopCache Key)
      ∧ (∀ k, (NewNoopCache Api).get k = none)
      ∧ (∀ k v, (NewNoopCache Api).set k v = NewNoopCache Api)
      ∧ (∀ k, (NewNoopCache Api).setNull k = NewNoopCache Api)
      ∧ (∀ k, (NewNoopCache Api).remove k = NewNoopCache Api)
      ∧ b.db = cfg9.database ∧ b.events = cfg9.events
      ∧ b.tracer = cfg9.tracer ∧ b.metrics = cfg9.metrics
      ∧ b.analytics = cfg9.analytics
      ∧ b.memoryRatelimit = cfg9.memoryRatelimit
      ∧ b.consitentRatelimit = cfg9.consitentRatelimit :=
  newBase_cache_fallbacks cfg9 {} rfl

/-- Claim C10: `New` dereferences the configured logger unconditionally
(`With().Str("svc", "keys").Logger()`), so it is undefined (panics,
modelled `none`) exactly when the logger is unset; with a logger present
it totally returns a service — also when the key cache and API cache are
nil — and the base service's logger carries the attached service name. -/
theorem New_requires_logger (config : Config) (mws : List Middleware) :
    (New config mws = none ↔ config.logger = none)
    ∧ (∀ l, config.logger = some l →
        ∃ b, newBase config = some b
          ∧ b.logger = l.withStr "svc" "keys"
          ∧ New config mws = some (mws.foldl (fun svc mw => mw svc) b.toService)) := by
  constructor
  · unfold New newBase
    cases config.logger with
    | none => simp
    | some l => simp
  · intro l hl
    have hb : newBase config =
        some { db := config.database, events := config.events,
               keyCache := config.keyCache.getD (NewNoopCache Key),
               apiCache := config.apiCache.getD (NewNoopCache Api),
               logger := l.withStr "svc" "keys",
               tracer := config.tracer, metrics := config.metrics,
               analytics := config.analytics,
               memoryRatelimit := config.memoryRatelimit,
               consitentRatelimit := config.consitentRatelimit } := by
      unfold newBase
      rw [hl]
    refine ⟨_, hb, rfl, ?_⟩
    unfold New
    rw [hb]
    rfl

/-- Witness for C10: with a present logger and both caches nil, `New`
returns a service whose base logger carries the `svc = keys` field. -/
theorem New_requires_logger_witness :
    (New cfg0 [] = none ↔ cfg0.logger = none)
    ∧ (∃ b, newBase cfg0 = some b
        ∧ b.logger = Logger.withStr {} "svc" "keys"
        ∧ New cfg0 [] = some (List.foldl (fun (svc : KeyService) (mw : Middleware) => mw svc)
            b.toService ([] : List Middleware))) :=
  ⟨(New_requires_logger cfg0 []).1, (New_requires_logger cfg0 []).2 {} rfl⟩

end Keys
